import Mathlib

/-!
Verification of the EE403-Capstone tutorial-notebook repository.

The repository is a collection of Jupyter notebooks calling the Metavision
event-camera SDK.  The development below shallowly embeds the notebooks'
own Python code (cell contents, in cell order) as Lean definitions and
proves or refutes the frozen claims about it.
-/

namespace EE403

/-! ### Python string primitives

Embeddings of the Python `str` operations the notebooks use, over the
character sequence of the string. -/

/-- Python `s.startswith(pre)`. -/
def pyStartsWith (s pre : String) : Bool := pre.data.isPrefixOf s.data

/-- Python `s.endswith(suf)`. -/
def pyEndsWith (s suf : String) : Bool := suf.data.isSuffixOf s.data

/-- Python `s.lower()` (ASCII case mapping suffices for the notebook
strings involved). -/
def pyToLower (s : String) : String := ⟨s.data.map Char.toLower⟩

/-! ## The `init_output` cell of `detection_and_tracking.ipynb`

```python
def init_output():
    if OUTPUT_VIDEO:
        assert OUTPUT_VIDEO.lower().endswith(".mp4"), "Video should be mp4"
    if DO_DISPLAY:
        cv2.namedWindow("Detection and Tracking", cv2.WINDOW_NORMAL)
    return FFmpegWriter(OUTPUT_VIDEO) if OUTPUT_VIDEO else None
```

The assertion is the only fallible step of the notebook's own code in this
cell; we embed it as an `Except`.  A Python `assert cond, msg` raises
`AssertionError(msg)` when `cond` is falsy; an empty `OUTPUT_VIDEO` string
is falsy, so the assert is only reached for a nonempty string. -/

/-- Embedding of the assertion logic of `init_output`: returns
`Except.error "Video should be mp4"` exactly when the Python code raises
its `AssertionError`, and `Except.ok` with the returned writer choice
(`some` for a video writer, `none` for `None`) otherwise. -/
def init_output (OUTPUT_VIDEO : String) : Except String (Option String) :=
  if OUTPUT_VIDEO ≠ "" then
    if pyEndsWith (pyToLower OUTPUT_VIDEO) ".mp4" then .ok (some OUTPUT_VIDEO)
    else .error "Video should be mp4"
  else .ok none

/-! ## DataLoader instantiations of the sequential-dataloader notebook

The notebook instantiates three loaders; the `num_workers` keyword of each
call, taken verbatim from the source:

* `SequentialDataLoader(files, ..., num_workers=0, ...)` (custom labels)
* `SequentialDataLoader(files, ..., num_workers=0, ...)` (load_boxes)
* `CDProcessorDataLoader(files, ..., num_workers=2, ...)`
-/

/-- One dataloader constructor call appearing in the notebooks, with the
`num_workers` argument it passes. -/
structure DataLoaderCall where
  name : String
  num_workers : Nat
  deriving DecidableEq, Repr

/-- The three dataloader instantiations of the sequential-dataloader
notebook, in cell order, with their literal `num_workers` arguments. -/
def dataLoaderCalls : List DataLoaderCall :=
  [⟨"SequentialDataLoader(custom_load_boxes_fn)", 0⟩,
   ⟨"SequentialDataLoader(load_boxes_fn)", 0⟩,
   ⟨"CDProcessorDataLoader", 2⟩]

/-! ## Downloads performed by notebook code

Each entry records a file fetched by a notebook cell together with the URL
(or URL source) the cell uses.  `get_sample` is the vendor helper; its
cells carry the comment "it will be downloaded from Prophesee's public
sample server", so its URL host is the vendor server
`dataset.prophesee.ai`.  The two `urlretrieve` calls and the Davis
`requests.get` call give their URLs literally in the source. -/

/-- A download performed by a notebook cell: target file and source URL. -/
structure Download where
  file : String
  url : String
  deriving DecidableEq, Repr

/-- Modelled from the spec: `get_sample` is vendor SDK code that fetches a
named sample from the vendor's public file server (the notebooks' comment:
"downloaded from Prophesee's public sample server"). -/
def getSampleUrl (file : String) : String :=
  "https://dataset.prophesee.ai/samples/" ++ file

/-- The Davis-240C download cell of
`Interfacing_with_Davis_240C_Dataset.ipynb`:
`url = "http://rpg.ifi.uzh.ch/datasets/davis/{}".format(sequence_filename)`
with `sequence_filename = "office_zigzag.zip"`. -/
def davisDownload : Download :=
  ⟨"office_zigzag.zip", "http://rpg.ifi.uzh.ch/datasets/davis/office_zigzag.zip"⟩

/-- All downloads of sample data performed by notebook code, across the
notebooks, in source order. -/
def downloads : List Download :=
  [⟨"driving_sample.raw", getSampleUrl "driving_sample.raw"⟩,
   ⟨"driving_sample_detections.txt",
    "https://dataset.prophesee.ai/index.php/s/cupakTZAbfnXrJe/download"⟩,
   ⟨"spinner.dat", getSampleUrl "spinner.dat"⟩,
   davisDownload,
   ⟨"sample_dataset.zip",
    "https://dataset.prophesee.ai/index.php/s/QFrGIKZ13fr1oQa/download"⟩,
   ⟨"hand_spinner.raw", getSampleUrl "hand_spinner.raw"⟩,
   ⟨"spinner.raw", getSampleUrl "spinner.raw"⟩,
   ⟨"80_balls.raw", getSampleUrl "80_balls.raw"⟩,
   ⟨"blinking_leds_td.dat", getSampleUrl "blinking_leds_td.dat"⟩,
   ⟨"calib_propheshield_parking.10_sec.raw",
    getSampleUrl "calib_propheshield_parking.10_sec.raw"⟩]

/-- A download is from the vendor's public file server when its URL points
at the `dataset.prophesee.ai` host. -/
def isVendorServer (d : Download) : Bool :=
  pyStartsWith d.url "https://dataset.prophesee.ai/"

/-! ## File reads and writes of each notebook

For claim C6 we record, per logical notebook, the working-directory files
its cells write (downloads land in the working directory; `np.save`
creates a file) and the files its cells read.  Extracted from the cells in
source order; `dataset_precomputed/…` stands for the files unzipped from
`sample_dataset.zip`. -/

/-- The files a notebook's cells write and read. -/
structure NotebookIO where
  name : String
  writes : List String
  reads : List String
  deriving DecidableEq, Repr

/-- `detection_and_tracking.ipynb`: downloads the driving sample and the
offline detections, reads both plus the pretrained model directory. -/
def ioDetectionTracking : NotebookIO :=
  ⟨"detection_and_tracking",
   ["driving_sample.raw", "driving_sample_detections.txt"],
   ["driving_sample.raw", "red_histogram_05_2020/model.ptjit",
    "driving_sample_detections.txt"]⟩

/-- `using_torchjit_model.ipynb`: loads the jit model, downloads and reads
the driving sample. -/
def ioTorchjit : NotebookIO :=
  ⟨"using_torchjit_model",
   ["driving_sample.raw"],
   ["red_histogram_05_2020/model.ptjit", "driving_sample.raw"]⟩

/-- `event_preprocessing.ipynb`: downloads and reads the spinner DAT. -/
def ioEventPreprocessing : NotebookIO :=
  ⟨"event_preprocessing", ["spinner.dat"], ["spinner.dat"]⟩

/-- `seq_dataloader.ipynb`: downloads the precomputed dataset zip and four
RAW samples, unzips the dataset, reads all of them. -/
def ioSeqDataloader : NotebookIO :=
  ⟨"seq_dataloader",
   ["sample_dataset.zip", "dataset_precomputed/label_map_dictionary.json",
    "dataset_precomputed/file.h5", "driving_sample.raw", "hand_spinner.raw",
    "spinner.raw", "80_balls.raw"],
   ["sample_dataset.zip", "dataset_precomputed/label_map_dictionary.json",
    "dataset_precomputed/file.h5", "driving_sample.raw", "hand_spinner.raw",
    "spinner.raw", "80_balls.raw"]⟩

/-- `Interfacing_with_Davis_240C_Dataset.ipynb`: downloads the Davis zip,
writes and reloads the converted `.npy`. -/
def ioDavis : NotebookIO :=
  ⟨"davis_240c",
   ["office_zigzag.zip", "office_zigzag.npy"],
   ["office_zigzag.zip", "office_zigzag.npy"]⟩

/-- `Blinking_lights_detector.ipynb`: downloads and reads its two sample
recordings. -/
def ioBlinking : NotebookIO :=
  ⟨"blinking_lights",
   ["blinking_leds_td.dat", "calib_propheshield_parking.10_sec.raw"],
   ["blinking_leds_td.dat", "calib_propheshield_parking.10_sec.raw"]⟩

/-- `flow_trainer.ipynb`: reads a local example image, downloads and reads
the hand spinner sample. -/
def ioFlowTrainer : NotebookIO :=
  ⟨"flow_trainer",
   ["hand_spinner.raw"],
   ["image_example.jpeg", "hand_spinner.raw"]⟩

/-- `metavision_ui_window.ipynb`: only reads a local image. -/
def ioUiWindow : NotebookIO :=
  ⟨"ui_window", [], ["metavision_ui_window_files/prophesee.jpg"]⟩

/-- `raw_dat_loading.ipynb`: downloads and reads the spinner RAW and DAT. -/
def ioRawDatLoading : NotebookIO :=
  ⟨"raw_dat_loading",
   ["spinner.raw", "spinner.dat"],
   ["spinner.raw", "spinner.dat"]⟩

/-- All nine logical notebooks of the repository with their file IO. -/
def notebookIOs : List NotebookIO :=
  [ioDetectionTracking, ioTorchjit, ioEventPreprocessing, ioSeqDataloader,
   ioDavis, ioBlinking, ioFlowTrainer, ioUiWindow, ioRawDatLoading]

/-- The vendor sample recordings fetched identically (same fixed URL,
download-if-absent) by more than one notebook. -/
def sharedSampleDownloads : List String :=
  ["driving_sample.raw", "hand_spinner.raw", "spinner.raw", "spinner.dat"]

/-! ## Phase structure of each notebook

For claim C7 we record, per notebook, the sequence of its coarse actions
in cell-execution order: downloading a sample file, constructing SDK
objects, calling SDK processing on some input file (`none` when the
processing consumes no file, e.g. a forward pass on a random tensor), and
plotting or displaying.  Loop bodies that repeat process/display rounds
are collapsed to one round; this preserves the relative order of every
distinct pair of phases. -/

/-- One coarse notebook action. -/
inductive NbAction where
  | download (f : String)
  | construct
  | process (f : Option String)
  | display
  deriving DecidableEq, Repr

/-- The phase rank the claim assigns: downloads first, then construction,
then processing, and display last. -/
def NbAction.rank : NbAction → Nat
  | .download _ => 0
  | .construct => 1
  | .process _ => 2
  | .display => 3

/-- A notebook with its action sequence. -/
structure Notebook where
  name : String
  actions : List NbAction
  deriving DecidableEq, Repr

/-- `Blinking_lights_detector.ipynb`: two sections, each downloading a
recording, constructing the frequency filters, processing and displaying;
the second download follows the first section's processing/display. -/
def nbBlinking : Notebook :=
  ⟨"blinking_lights",
   [.download "blinking_leds_td.dat", .construct,
    .process (some "blinking_leds_td.dat"), .display,
    .download "calib_propheshield_parking.10_sec.raw", .construct,
    .process (some "calib_propheshield_parking.10_sec.raw"), .display]⟩

/-- `detection_and_tracking.ipynb`: download, construction of the
pipeline, final pipeline loop (process/display interleaved), then the
offline-detections download and the second pipeline loop. -/
def nbDetectionTracking : Notebook :=
  ⟨"detection_and_tracking",
   [.download "driving_sample.raw", .construct, .construct, .construct,
    .construct, .construct,
    .process (some "driving_sample.raw"), .display,
    .download "driving_sample_detections.txt", .construct,
    .process (some "driving_sample.raw"), .display]⟩

/-- `using_torchjit_model.ipynb`: loads the jit model before downloading
the driving sample, then iterates/preprocesses and plots feature maps. -/
def nbTorchjit : Notebook :=
  ⟨"using_torchjit_model",
   [.construct, .download "driving_sample.raw", .construct,
    .process (some "driving_sample.raw"), .display,
    .process (some "driving_sample.raw"), .display]⟩

/-- `event_preprocessing.ipynb`: download, reader construction, repeated
preprocessing/plot rounds, then the local preprocessing definition and its
registration (a construction step). -/
def nbEventPreprocessing : Notebook :=
  ⟨"event_preprocessing",
   [.download "spinner.dat", .construct, .process (some "spinner.dat"),
    .display, .process (some "spinner.dat"), .display, .construct]⟩

/-- `seq_dataloader.ipynb`: dataset download, loader constructions and
visualisations, then the four RAW downloads and the streaming loader. -/
def nbSeqDataloader : Notebook :=
  ⟨"seq_dataloader",
   [.download "sample_dataset.zip", .construct, .construct,
    .process (some "dataset_precomputed/file.h5"), .display, .construct,
    .display, .download "driving_sample.raw", .download "hand_spinner.raw",
    .download "spinner.raw", .download "80_balls.raw", .construct,
    .process (some "driving_sample.raw"), .display]⟩

/-- `Interfacing_with_Davis_240C_Dataset.ipynb`: download, image display,
event conversion, filter construction and the comparison loop. -/
def nbDavis : Notebook :=
  ⟨"davis_240c",
   [.download "office_zigzag.zip", .process (some "office_zigzag.zip"),
    .display, .process (some "office_zigzag.zip"), .construct,
    .process (some "office_zigzag.zip"), .display, .display]⟩

/-- `flow_trainer.ipynb`: network construction and simulator processing on
a local image precede the only sample download. -/
def nbFlowTrainer : Notebook :=
  ⟨"flow_trainer",
   [.construct, .process none, .process (some "image_example.jpeg"),
    .display, .process (some "image_example.jpeg"), .display,
    .download "hand_spinner.raw", .process (some "hand_spinner.raw")]⟩

/-- `metavision_ui_window.ipynb`: window construction and display only. -/
def nbUiWindow : Notebook :=
  ⟨"ui_window", [.construct, .display, .construct, .display]⟩

/-- `raw_dat_loading.ipynb`: two downloads, reader constructions, event
loading and a final plot. -/
def nbRawDatLoading : Notebook :=
  ⟨"raw_dat_loading",
   [.download "spinner.raw", .download "spinner.dat", .construct,
    .construct, .process (some "spinner.raw"),
    .process (some "spinner.raw"), .display]⟩

/-- All nine notebooks with their action sequences. -/
def notebooks : List Notebook :=
  [nbDetectionTracking, nbTorchjit, nbEventPreprocessing, nbSeqDataloader,
   nbDavis, nbBlinking, nbFlowTrainer, nbUiWindow, nbRawDatLoading]

/-- Non-decreasing check on a list of naturals. -/
def chainLe : List Nat → Bool
  | [] => true
  | [_] => true
  | a :: b :: rest => Nat.ble a b && chainLe (b :: rest)

/-- The strict phase order the claim states: the sequence of phase ranks
is non-decreasing (all downloads, then constructions, then processing,
then display). -/
def phaseOrdered (l : List NbAction) : Bool :=
  chainLe (l.map NbAction.rank)

/-- The download actions of an action list. -/
def downloadsOf : List NbAction → List String
  | [] => []
  | .download f :: rest => f :: downloadsOf rest
  | _ :: rest => downloadsOf rest

/-- Checks, scanning the action list, that every processing step
consuming a file that the notebook downloads at some point sees that
download happen earlier (`seen` accumulates completed downloads). -/
def downloadsPrecedeUse (dls : List String) : List String → List NbAction → Bool
  | _, [] => true
  | seen, .download f :: rest => downloadsPrecedeUse dls (f :: seen) rest
  | seen, .process (some f) :: rest =>
      (seen.contains f || !(dls.contains f)) &&
        downloadsPrecedeUse dls seen rest
  | seen, _ :: rest => downloadsPrecedeUse dls seen rest

/-! ## The `generate_detection` cell of `detection_and_tracking.ipynb`

```python
NN_accumulation_time = object_detector.get_accumulation_time()
def generate_detection(ts, ev):
    current_frame_start_ts = ((ts-1) // NN_accumulation_time) * NN_accumulation_time
    cdproc.process_events(current_frame_start_ts, ev, frame_buffer)
    detections = np.empty(0, dtype=EventBbox)
    if ts % NN_accumulation_time == 0:
        detections = object_detector.process(ts, frame_buffer)
        frame_buffer.fill(0)
    return detections
```

The two SDK calls (`cdproc.process_events`, which mutates the shared
`frame_buffer`, and `object_detector.process`) are closed vendor code, so
they enter the embedding as abstract function parameters; the notebook's
own control flow around them is embedded exactly.  A frame buffer is
`channel → row → column → value`; Python `//` is floor division
(`Int.fdiv`) and `%` with a positive modulus agrees with `Int.emod`. -/

/-- Embedding of `generate_detection`: returns the detections list and the
frame buffer as it stands after the call. -/
def generate_detection {Ev D : Type}
    (process_events :
      Int → List Ev → (Nat → Nat → Nat → Nat) → (Nat → Nat → Nat → Nat))
    (detector_process : Int → (Nat → Nat → Nat → Nat) → List D)
    (NN_accumulation_time : Int) (ts : Int) (ev : List Ev)
    (frame_buffer : Nat → Nat → Nat → Nat) :
    List D × (Nat → Nat → Nat → Nat) :=
  let current_frame_start_ts :=
    ((ts - 1).fdiv NN_accumulation_time) * NN_accumulation_time
  let buf := process_events current_frame_start_ts ev frame_buffer
  let detections : List D := []
  if ts % NN_accumulation_time = 0 then
    (detector_process ts buf, fun _ _ _ => 0)
  else (detections, buf)

/-! ## The `binary_frame_preprocessing` cell of `event_preprocessing.ipynb`

This function is defined by the notebook itself ("Implementing Your Own
Preprocessing Function"):

```python
def binary_frame_preprocessing(xypt, output_array, total_tbins_delta_t,
                               downsampling_factor=0, reset=True):
    num_tbins = output_array.shape[0]
    dt = int(total_tbins_delta_t / num_tbins)
    if reset:
        output_array[...] = 0
    ti = 0  # time bins starts at 0
    bin_threshold_int = int(math.ceil(dt))
    for i in range(xypt.shape[0]):
        x, y, p, t = xypt['x'][i] >> downsampling_factor, \
                     xypt['y'][i] >> downsampling_factor, \
                     xypt['p'][i], xypt['t'][i]
        if t >= bin_threshold_int and ti + 1 < num_tbins:
            ti = int(t // dt)
            bin_threshold_int = int(math.ceil((ti+1) * dt))
        output_array[ti, p, y, x] = 1
```

Events carry non-negative coordinates and (per the claims' hypotheses)
non-negative timestamps, so we embed them over `Nat`; `>>` is
`Nat.shiftRight` and `int(total/num_tbins)` for non-negative operands is
natural division; since `dt` is an integer, `int(math.ceil(dt)) = dt` and
`int(math.ceil((ti+1)*dt)) = (ti+1)*dt`.  The four-dimensional output
array is modelled as a total function on indices, together with its first
shape dimension `num_tbins` passed explicitly (the Python code reads it
from `output_array.shape[0]`). -/

/-- One event of a numpy `xypt` structured array. -/
structure EvXYPT where
  x : Nat
  y : Nat
  p : Nat
  t : Nat
  deriving DecidableEq, Repr

/-- A 4-dimensional output array as a total function
`tbin → channel → row → column → value`. -/
def Tensor4 : Type := Nat → Nat → Nat → Nat → Nat

/-- One iteration of the `binary_frame_preprocessing` loop: from the state
`(ti, bin_threshold_int)` and one event, the next state and the index
written. -/
def bfpStep (num_tbins dt d : Nat) (st : Nat × Nat) (e : EvXYPT) :
    (Nat × Nat) × (Nat × Nat × Nat × Nat) :=
  let x := e.x >>> d
  let y := e.y >>> d
  let p := e.p
  let t := e.t
  if t ≥ st.2 ∧ st.1 + 1 < num_tbins then
    let ti2 := t / dt
    ((ti2, (ti2 + 1) * dt), (ti2, p, y, x))
  else (st, (st.1, p, y, x))

/-- The indices written by the loop, starting from state `st`. -/
def bfpWritesAux (num_tbins dt d : Nat) :
    Nat × Nat → List EvXYPT → List (Nat × Nat × Nat × Nat)
  | _, [] => []
  | st, e :: rest =>
    (bfpStep num_tbins dt d st e).2 ::
      bfpWritesAux num_tbins dt d (bfpStep num_tbins dt d st e).1 rest

/-- The indices written by `binary_frame_preprocessing` over the whole
event array (initial state `ti = 0`, `bin_threshold_int = dt`). -/
def bfpWrites (xypt : List EvXYPT) (num_tbins dt d : Nat) :
    List (Nat × Nat × Nat × Nat) :=
  bfpWritesAux num_tbins dt d (0, dt) xypt

/-- `output_array[i, j, k, l] = 1`. -/
def setOne (a : Tensor4) (w : Nat × Nat × Nat × Nat) : Tensor4 :=
  fun i j k l => if (i, j, k, l) = w then 1 else a i j k l

/-- Performing a list of unit writes on an array. -/
def applyWrites (ws : List (Nat × Nat × Nat × Nat)) (a : Tensor4) : Tensor4 :=
  ws.foldl setOne a

/-- Embedding of `binary_frame_preprocessing`: the output array after the
call. -/
def binary_frame_preprocessing (xypt : List EvXYPT) (output_array : Tensor4)
    (num_tbins total_tbins_delta_t downsampling_factor : Nat)
    (reset : Bool) : Tensor4 :=
  let dt := total_tbins_delta_t / num_tbins
  let init : Tensor4 := if reset then (fun _ _ _ _ => 0) else output_array
  applyWrites (bfpWrites xypt num_tbins dt downsampling_factor) init

/-! ## The EventCD conversion cell of
`Interfacing_with_Davis_240C_Dataset.ipynb`

```python
from metavision_sdk_base import EventCD  # numpy dtype
dic_events = {}
for name in EventCD.names:
    dic_events[name] = []
... for line in events_file:
        t, x, y, p = line.split()
        dic_events["x"].append(int(x))
        dic_events["y"].append(int(y))
        dic_events["p"].append(int(p))
        dic_events["t"].append(int(float(t) * 1e6))
events_np = np.empty(len(dic_events["x"]), dtype=EventCD)
for name in EventCD.names:
    events_np[name] = np.array(dic_events[name])
np.save(sequence_npy, events_np)
... events_np = np.load(sequence_npy)
assert events_np.dtype == EventCD
```
-/

/-- Modelled from the spec: the vendor `EventCD` structured record type
has exactly the four fields x, y, polarity `p` and timestamp `t` (spec
glossary: "EventCD: vendor SDK's structured record type representing one
event (x, y, polarity, timestamp)"); `EventCD.names` is this field list. -/
def EventCD_names : List String := ["x", "y", "p", "t"]

/-- A numpy structured array: the field names of its dtype, and its rows
(one list of field values per element). -/
structure StructuredArray where
  dtype : List String
  rows : List (List Int)
  deriving DecidableEq, Repr

/-- One tokenised line of the Davis `events.txt`; the timestamp is
already scaled to integer microseconds as `int(float(t) * 1e6)` does (the
decimal-literal parsing itself is standard-library code). -/
structure DavisLine where
  t_us : Int
  x : Int
  y : Int
  p : Int
  deriving DecidableEq, Repr

/-- The conversion loop: each line appends its x, y, p and scaled t to the
four per-field lists, which are then assembled field-by-field into an
array of dtype `EventCD`; element `i` of the result therefore carries the
values of line `i` in field order x, y, p, t. -/
def davisConvert (ls : List DavisLine) : StructuredArray :=
  { dtype := EventCD_names,
    rows := ls.map (fun l => [l.x, l.y, l.p, l.t_us]) }

/-- An `.npy` file: numpy's format stores the dtype descriptor, the shape
and the flattened data.  Modelled from the spec: `np.save`/`np.load` are
external numpy library calls with this documented format. -/
structure NpyFile where
  descr : List String
  shape : Nat
  data : List Int
  deriving DecidableEq, Repr

/-- Splits flattened data back into `shape` rows of `n` fields each. -/
def chunkRows (n : Nat) : Nat → List Int → List (List Int)
  | 0, _ => []
  | Nat.succ m, xs => xs.take n :: chunkRows n m (xs.drop n)

/-- `np.save`: serialise dtype, shape and flattened data. -/
def npSave (a : StructuredArray) : NpyFile :=
  ⟨a.dtype, a.rows.length, a.rows.flatten⟩

/-- `np.load`: rebuild the structured array from the file. -/
def npLoad (f : NpyFile) : StructuredArray :=
  ⟨f.descr, chunkRows f.descr.length f.shape f.data⟩

/-! ## The filtering-comparison loop of
`Interfacing_with_Davis_240C_Dataset.ipynb`

```python
ts = 0
start_idx = 0
delta_t = 10000
while start_idx < len(events_np):
    ts += delta_t
    end_idx = np.searchsorted(events_np["t"], ts)
    ev = events_np[start_idx:end_idx]
    start_idx = end_idx
    ...  # SDK filtering, event counting and frame display on the chunk ev
```

The loop body's SDK filtering, counting and display calls do not touch
`ts`, `start_idx` or the chunk boundaries, so the embedding carries the
loop variables and records the chunk `[start_idx, end_idx)` handed to the
body at each iteration.  (The interactive `break` on the `q` key is
external user input and is outside the embedded loop.) -/

/-- `np.searchsorted(a, v)` with the default left side on a sorted array:
the first index whose element is `≥ v` (the insertion point). -/
def searchsorted : List Int → Int → Nat
  | [], _ => 0
  | a :: rest, v => if a < v then searchsorted rest v + 1 else 0

/-- State of the comparison loop: current `ts`, current `start_idx`, and
the chunks `[start_idx, end_idx)` processed so far. -/
structure FilterLoopState where
  ts : Int
  start_idx : Nat
  chunks : List (Nat × Nat)
  deriving DecidableEq, Repr

/-- The while loop, with an explicit fuel bound on the number of
iterations (the termination theorem shows a sufficient fuel after which
the state no longer changes). -/
def filterLoop (t : List Int) (delta_t : Int) :
    Nat → FilterLoopState → FilterLoopState
  | 0, s => s
  | Nat.succ fuel, s =>
      if s.start_idx < t.length then
        filterLoop t delta_t fuel
          ⟨s.ts + delta_t, searchsorted t (s.ts + delta_t),
           s.chunks ++ [(s.start_idx, searchsorted t (s.ts + delta_t))]⟩
      else s

/-- `ts = 0`, `start_idx = 0`, nothing processed yet. -/
def filterLoopInit : FilterLoopState := ⟨0, 0, []⟩

/-- Running the loop from its initial state. -/
def filterLoopRun (t : List Int) (delta_t : Int) (fuel : Nat) :
    FilterLoopState :=
  filterLoop t delta_t fuel filterLoopInit

/-- The largest timestamp of the array (0 for the empty array); used to
bound the number of loop iterations. -/
def listMax (l : List Int) : Int := l.foldr max 0

/-- A fuel amount sufficient for the loop to terminate on its own: once
`ts` passes the largest timestamp, `searchsorted` returns the array
length and the while condition fails. -/
def filterFuel (t : List Int) : Nat := (listMax t).toNat + 2

/-- A list of consecutive half-open index intervals running from `a` to
`b`: each chunk starts where its predecessor ended. -/
def ChunkChain : Nat → Nat → List (Nat × Nat) → Prop
  | a, b, [] => a = b
  | a, b, c :: rest => c.1 = a ∧ a ≤ c.2 ∧ ChunkChain c.2 b rest

/-- Loop invariant: the chunks recorded so far chain from index 0 to the
current `start_idx`, and the current `start_idx` never exceeds the
insertion point of the next threshold. -/
def LoopInv (t : List Int) (delta_t : Int) (s : FilterLoopState) : Prop :=
  ChunkChain 0 s.start_idx s.chunks ∧
  s.start_idx ≤ searchsorted t (s.ts + delta_t)

end EE403

namespace EE403

/-! ## Helper lemmas about `binary_frame_preprocessing` -/

/-- The value of the array after a write list: `1` at written indices,
the initial value elsewhere. -/
theorem applyWrites_apply (ws : List (Nat × Nat × Nat × Nat)) (a : Tensor4)
    (i j k l : Nat) :
    applyWrites ws a i j k l = if (i, j, k, l) ∈ ws then 1 else a i j k l := by
  induction ws generalizing a with
  | nil => simp [applyWrites]
  | cons w rest ih =>
    show applyWrites rest (setOne a w) i j k l = _
    rw [ih]
    by_cases h : (i, j, k, l) ∈ rest
    · simp [h]
    · by_cases hw : (i, j, k, l) = w
      · simp [h, hw, setOne]
      · simp [h, hw, setOne]

/-- With a single time bin the loop never moves `ti` off `0`: the state is
constant and each event writes at its own (downsampled) coordinates. -/
theorem bfpWritesAux_one_tbin (dt d : Nat) (xs : List EvXYPT) (st : Nat × Nat) :
    bfpWritesAux 1 dt d st xs =
      xs.map (fun e => (st.1, e.p, e.y >>> d, e.x >>> d)) := by
  induction xs generalizing st with
  | nil => rfl
  | cons e rest ih =>
    have hcond : ¬ (e.t ≥ st.2 ∧ st.1 + 1 < 1) := by omega
    simp [bfpWritesAux, bfpStep, hcond, ih]

/-- Bounds on every written index, under the invariant `ti < num_tbins`
and per-event bounds (`num_tbins * dt` bounds the timestamps). -/
theorem bfpWritesAux_bounds (num_tbins dt d W H C : Nat)
    (xs : List EvXYPT) (st : Nat × Nat)
    (hst : st.1 < num_tbins) (hdt : 0 < dt)
    (hev : ∀ e ∈ xs,
      e.t < num_tbins * dt ∧ e.x >>> d < W ∧ e.y >>> d < H ∧ e.p < C) :
    ∀ w ∈ bfpWritesAux num_tbins dt d st xs,
      w.1 < num_tbins ∧ w.2.1 < C ∧ w.2.2.1 < H ∧ w.2.2.2 < W := by
  induction xs generalizing st with
  | nil => intro w hw; simp [bfpWritesAux] at hw
  | cons e rest ih =>
    intro w hw
    have he := hev e (List.mem_cons_self e rest)
    have hrest : ∀ e2 ∈ rest,
        e2.t < num_tbins * dt ∧ e2.x >>> d < W ∧ e2.y >>> d < H ∧
        e2.p < C := fun e2 h2 => hev e2 (List.mem_cons_of_mem e h2)
    have hti2 : e.t / dt < num_tbins :=
      (Nat.div_lt_iff_lt_mul hdt).mpr
        (by calc e.t < num_tbins * dt := he.1
                 _ = num_tbins * dt := rfl)
    simp only [bfpWritesAux, List.mem_cons] at hw
    rcases hw with rfl | hw
    · unfold bfpStep
      by_cases hc : e.t ≥ st.2 ∧ st.1 + 1 < num_tbins
      · simp only [hc, if_pos]
        exact ⟨hti2, he.2.2.2, he.2.2.1, he.2.1⟩
      · simp only [hc, if_neg, not_false_iff]
        exact ⟨hst, he.2.2.2, he.2.2.1, he.2.1⟩
    · refine ih _ ?_ hrest w hw
      unfold bfpStep
      by_cases hc : e.t ≥ st.2 ∧ st.1 + 1 < num_tbins
      · simpa [hc] using hti2
      · simpa [hc] using hst

/-! ## Helper lemma for the `.npy` round-trip -/

/-- Chunking the concatenation of equal-length rows recovers the rows. -/
theorem chunkRows_join (n : Nat) (rows : List (List Int))
    (hr : ∀ r ∈ rows, r.length = n) :
    chunkRows n rows.length rows.flatten = rows := by
  induction rows with
  | nil => rfl
  | cons r rest ih =>
    have hlen : r.length = n := hr r (List.mem_cons_self r rest)
    have hrest : ∀ r2 ∈ rest, r2.length = n :=
      fun r2 h2 => hr r2 (List.mem_cons_of_mem r h2)
    show ((r :: rest).flatten).take n ::
      chunkRows n rest.length (((r :: rest).flatten).drop n) = r :: rest
    rw [List.flatten_cons, List.take_left' hlen, List.drop_left' hlen]
    rw [ih hrest]

/-! ## Helper lemmas for the filtering-comparison loop -/

/-- The insertion point never exceeds the array length. -/
theorem searchsorted_le_length (l : List Int) (v : Int) :
    searchsorted l v ≤ l.length := by
  induction l with
  | nil => exact Nat.le_refl 0
  | cons a rest ih =>
    simp only [searchsorted, List.length_cons]
    split
    · omega
    · omega

/-- Monotonicity of the insertion point in the threshold. -/
theorem searchsorted_mono (l : List Int) {v w : Int} (h : v ≤ w) :
    searchsorted l v ≤ searchsorted l w := by
  induction l with
  | nil => exact Nat.le_refl 0
  | cons a rest ih =>
    simp only [searchsorted]
    by_cases hv : a < v
    · have hw : a < w := lt_of_lt_of_le hv h
      simp only [hv, hw, if_pos]
      omega
    · simp only [hv, if_neg, not_false_iff]
      omega

/-- When the threshold exceeds every element, the insertion point is the
length of the array. -/
theorem searchsorted_eq_length (l : List Int) (v : Int)
    (h : ∀ x ∈ l, x < v) : searchsorted l v = l.length := by
  induction l with
  | nil => rfl
  | cons a rest ih =>
    have ha : a < v := h a (List.mem_cons_self a rest)
    simp only [searchsorted, ha, if_pos, List.length_cons]
    rw [ih (fun x hx => h x (List.mem_cons_of_mem a hx))]

/-- Every element of the array is bounded by `listMax`. -/
theorem le_listMax (l : List Int) (x : Int) (hx : x ∈ l) : x ≤ listMax l := by
  induction l with
  | nil => cases hx
  | cons a rest ih =>
    rcases List.mem_cons.mp hx with rfl | hx
    · exact le_max_left _ _
    · exact le_trans (ih hx) (le_max_right _ _)

/-- Once the while condition fails, the loop returns its state
unchanged. -/
theorem filterLoop_exit (t : List Int) (delta_t : Int) (fuel : Nat)
    (s : FilterLoopState) (h : ¬ s.start_idx < t.length) :
    filterLoop t delta_t fuel s = s := by
  cases fuel with
  | zero => rfl
  | succ fuel => simp [filterLoop, h]

/-- Splitting the fuel of the loop. -/
theorem filterLoop_add (t : List Int) (delta_t : Int) (a b : Nat)
    (s : FilterLoopState) :
    filterLoop t delta_t (a + b) s =
      filterLoop t delta_t b (filterLoop t delta_t a s) := by
  induction a generalizing s with
  | zero =>
    rw [Nat.zero_add]
    rfl
  | succ a ih =>
    have hab : a + 1 + b = (a + b) + 1 := by omega
    rw [hab]
    by_cases h : s.start_idx < t.length
    · have hL : filterLoop t delta_t ((a + b) + 1) s =
          filterLoop t delta_t (a + b)
            ⟨s.ts + delta_t, searchsorted t (s.ts + delta_t),
             s.chunks ++ [(s.start_idx, searchsorted t (s.ts + delta_t))]⟩ := by
        simp [filterLoop, h]
      have hR : filterLoop t delta_t (a + 1) s =
          filterLoop t delta_t a
            ⟨s.ts + delta_t, searchsorted t (s.ts + delta_t),
             s.chunks ++ [(s.start_idx, searchsorted t (s.ts + delta_t))]⟩ := by
        simp [filterLoop, h]
      rw [hL, hR, ih]
    · rw [filterLoop_exit _ _ _ _ h, filterLoop_exit _ _ _ _ h,
        filterLoop_exit _ _ _ _ h]

/-- With enough fuel the loop drains the whole array: after
`fuel + 1` iterations with every timestamp below `s.ts + Δ + fuel * Δ`,
the start index has reached the end of the array. -/
theorem filterLoop_drains (t : List Int) (delta_t : Int) :
    ∀ (fuel : Nat) (s : FilterLoopState),
      (∀ x ∈ t, x < s.ts + delta_t + (fuel : Int) * delta_t) →
      t.length ≤ (filterLoop t delta_t (fuel + 1) s).start_idx := by
  intro fuel
  induction fuel with
  | zero =>
    intro s hall
    by_cases h : s.start_idx < t.length
    · have he : searchsorted t (s.ts + delta_t) = t.length :=
        searchsorted_eq_length _ _ (fun x hx => by
          have := hall x hx
          simpa using this)
      show t.length ≤ (filterLoop t delta_t 1 s).start_idx
      simp [filterLoop, h, he]
    · rw [filterLoop_exit _ _ _ _ h]
      omega
  | succ fuel ih =>
    intro s hall
    by_cases h : s.start_idx < t.length
    · show t.length ≤ (filterLoop t delta_t (fuel + 1 + 1) s).start_idx
      have hstep : filterLoop t delta_t (fuel + 1 + 1) s =
          filterLoop t delta_t (fuel + 1)
            ⟨s.ts + delta_t, searchsorted t (s.ts + delta_t),
             s.chunks ++ [(s.start_idx, searchsorted t (s.ts + delta_t))]⟩ := by
        simp [filterLoop, h]
      rw [hstep]
      refine ih _ (fun x hx => ?_)
      have := hall x hx
      push_cast at this ⊢
      linarith
    · rw [filterLoop_exit _ _ _ _ h]
      omega

/-- Appending the next chunk extends a chunk chain. -/
theorem ChunkChain_append (a b e : Nat) (l : List (Nat × Nat))
    (h : ChunkChain a b l) (hbe : b ≤ e) :
    ChunkChain a e (l ++ [(b, e)]) := by
  induction l generalizing a with
  | nil =>
    have hab : a = b := h
    exact ⟨hab.symm, hab ▸ hbe, rfl⟩
  | cons c rest ih =>
    obtain ⟨h1, h2, h3⟩ := h
    exact ⟨h1, h2, ih _ h3⟩

/-- The loop preserves its invariant. -/
theorem filterLoop_inv (t : List Int) (delta_t : Int) (hd : 0 ≤ delta_t) :
    ∀ (fuel : Nat) (s : FilterLoopState), LoopInv t delta_t s →
      LoopInv t delta_t (filterLoop t delta_t fuel s) := by
  intro fuel
  induction fuel with
  | zero => intro s hs; exact hs
  | succ fuel ih =>
    intro s hs
    by_cases h : s.start_idx < t.length
    · have hstep : filterLoop t delta_t (fuel + 1) s =
          filterLoop t delta_t fuel
            ⟨s.ts + delta_t, searchsorted t (s.ts + delta_t),
             s.chunks ++ [(s.start_idx, searchsorted t (s.ts + delta_t))]⟩ := by
        simp [filterLoop, h]
      rw [hstep]
      refine ih _ ⟨ChunkChain_append _ _ _ _ hs.1 hs.2, ?_⟩
      show searchsorted t (s.ts + delta_t) ≤
        searchsorted t (s.ts + delta_t + delta_t)
      exact searchsorted_mono t (by linarith)
    · rw [filterLoop_exit _ _ _ _ h]
      exact hs

/-- A chunk chain from `a` to `b` implies `a ≤ b`. -/
theorem ChunkChain_le (a b : Nat) (l : List (Nat × Nat))
    (h : ChunkChain a b l) : a ≤ b := by
  induction l generalizing a with
  | nil => exact le_of_eq h
  | cons c rest ih =>
    obtain ⟨h1, h2, h3⟩ := h
    exact le_trans h2 (ih _ h3)

/-- Every chunk of a chain lies between the chain's endpoints and is
well-formed. -/
theorem ChunkChain_bounds (a b : Nat) (l : List (Nat × Nat))
    (h : ChunkChain a b l) :
    ∀ c ∈ l, a ≤ c.1 ∧ c.1 ≤ c.2 ∧ c.2 ≤ b := by
  induction l generalizing a with
  | nil => intro c hc; cases hc
  | cons c0 rest ih =>
    intro c hc
    obtain ⟨h1, h2, h3⟩ := h
    rcases List.mem_cons.mp hc with rfl | hc
    · exact ⟨le_of_eq h1.symm, h1 ▸ h2, ChunkChain_le _ _ _ h3⟩
    · have hrec := ih _ h3 c hc
      exact ⟨le_trans (h1 ▸ h2) hrec.1, hrec.2.1, hrec.2.2⟩

/-- Every index strictly between the endpoints of a chunk chain lies in
exactly one chunk of the chain. -/
theorem ChunkChain_countP (i : Nat) :
    ∀ (a b : Nat) (l : List (Nat × Nat)), ChunkChain a b l →
      a ≤ i → i < b →
      l.countP (fun c => decide (c.1 ≤ i ∧ i < c.2)) = 1 := by
  intro a b l
  induction l generalizing a with
  | nil =>
    intro h hai hib
    have hab : a = b := h
    omega
  | cons c rest ih =>
    intro h hai hib
    obtain ⟨h1, h2, h3⟩ := h
    rw [List.countP_cons]
    by_cases hc : i < c.2
    · have hhead : (decide (c.1 ≤ i ∧ i < c.2)) = true := by
        simp only [decide_eq_true_eq]
        exact ⟨h1 ▸ hai, hc⟩
      have hzero : rest.countP (fun c => decide (c.1 ≤ i ∧ i < c.2)) = 0 := by
        rw [List.countP_eq_zero]
        intro c' hc'
        have hge := (ChunkChain_bounds _ _ _ h3 c' hc').1
        simp only [decide_eq_true_eq, not_and]
        intro hle
        omega
      rw [hzero, hhead]
      simp
    · have hhead : (decide (c.1 ≤ i ∧ i < c.2)) = false := by
        simp only [decide_eq_false_iff_not, not_and]
        intro _
        exact hc
      have htail := ih _ h3 (by omega) hib
      rw [htail, hhead]
      simp

/-- In a chunk chain, every chunk after `c` starts no earlier than where
`c` ends. -/
theorem ChunkChain_order (a b : Nat) :
    ∀ (l1 : List (Nat × Nat)) (c : Nat × Nat) (l2 : List (Nat × Nat)),
      ChunkChain a b (l1 ++ c :: l2) → ∀ c' ∈ l2, c.2 ≤ c'.1 := by
  intro l1
  induction l1 generalizing a with
  | nil =>
    intro c l2 h c' hc'
    obtain ⟨h1, h2, h3⟩ := h
    exact (ChunkChain_bounds _ _ _ h3 c' hc').1
  | cons c0 rest ih =>
    intro c l2 h c' hc'
    obtain ⟨h1, h2, h3⟩ := h
    exact ih _ c l2 h3 c' hc'

/-! ## Claim theorems (first batch) -/

/-- C2, counterexample: the claim says repository code raises no errors of
its own and never constructs an error message, yet `init_output` with a
nonempty `OUTPUT_VIDEO` not ending in ".mp4" raises an `AssertionError`
whose message "Video should be mp4" is written in the notebook cell. -/
theorem C2_counterexample :
    init_output "out.avi" = .error "Video should be mp4" := by
  rfl

/-- C2, amended: the notebook code does raise errors of its own through
`assert` statements; the `init_output` cell fails exactly when
`OUTPUT_VIDEO` is nonempty and does not end in ".mp4", and the only error
message its code constructs is "Video should be mp4". -/
theorem C2_init_output_error_policy (v m : String) :
    init_output v = .error m ↔
      (v ≠ "" ∧ pyEndsWith (pyToLower v) ".mp4" = false ∧
       m = "Video should be mp4") := by
  unfold init_output
  by_cases hv : v = ""
  · simp [hv]
  · by_cases he : pyEndsWith (pyToLower v) ".mp4"
    · simp [hv, he]
    · simp [hv, he]
      exact eq_comm

/-- Witness for C2_init_output_error_policy at a concrete input. -/
theorem C2_init_output_error_policy_witness :
    init_output "out.avi" = .error "Video should be mp4" ↔
      (("out.avi" : String) ≠ "" ∧
       pyEndsWith (pyToLower "out.avi") ".mp4" = false ∧
       ("Video should be mp4" : String) = "Video should be mp4") :=
  C2_init_output_error_policy "out.avi" "Video should be mp4"

/-- C3, counterexample: the claim says no notebook requests parallel
workers, but the `CDProcessorDataLoader` cell of the sequential-dataloader
notebook passes `num_workers=2`. -/
theorem C3_counterexample :
    ∃ c ∈ dataLoaderCalls, c.num_workers ≠ 0 := by
  exact ⟨⟨"CDProcessorDataLoader", 2⟩, by decide, by decide⟩

/-- C3, amended: every dataloader instantiation in the notebooks other
than the `CDProcessorDataLoader` cell requests zero workers, and the
`CDProcessorDataLoader` cell requests exactly two parallel workers; no
other scheduling, cancellation or resource-sharing mechanism appears. -/
theorem C3_workers_amended (c : DataLoaderCall) (hc : c ∈ dataLoaderCalls) :
    (c.name ≠ "CDProcessorDataLoader" → c.num_workers = 0) ∧
    (c.name = "CDProcessorDataLoader" → c.num_workers = 2) := by
  fin_cases hc <;> exact ⟨fun h => by first | rfl | exact absurd rfl h,
    fun h => by first | rfl | exact absurd h (by decide)⟩

/-- Witness for C3_workers_amended at the first SequentialDataLoader call. -/
theorem C3_workers_amended_witness :
    ((⟨"SequentialDataLoader(custom_load_boxes_fn)", 0⟩ :
        DataLoaderCall).name ≠ "CDProcessorDataLoader" →
      (⟨"SequentialDataLoader(custom_load_boxes_fn)", 0⟩ :
        DataLoaderCall).num_workers = 0) ∧
    ((⟨"SequentialDataLoader(custom_load_boxes_fn)", 0⟩ :
        DataLoaderCall).name = "CDProcessorDataLoader" →
      (⟨"SequentialDataLoader(custom_load_boxes_fn)", 0⟩ :
        DataLoaderCall).num_workers = 2) :=
  C3_workers_amended ⟨"SequentialDataLoader(custom_load_boxes_fn)", 0⟩
    (by decide)

/-- C4, counterexample: the claim says every sample download fetches from
the vendor's public file server, but the Davis-240C notebook downloads
`office_zigzag.zip` from `rpg.ifi.uzh.ch`, not from
`dataset.prophesee.ai`. -/
theorem C4_counterexample :
    davisDownload ∈ downloads ∧ isVendorServer davisDownload = false := by
  exact ⟨by decide, by decide⟩

/-- C4, amended: every sample download performed by notebook code other
than the Davis-240C `office_zigzag.zip` download (which fetches from the
University of Zurich server `rpg.ifi.uzh.ch`) is from the vendor's public
file server. -/
theorem C4_downloads_amended (d : Download) (hd : d ∈ downloads)
    (hne : d ≠ davisDownload) : isVendorServer d = true := by
  fin_cases hd <;> first
    | decide
    | exact absurd rfl hne

/-- Witness for C4_downloads_amended at the driving_sample.raw download. -/
theorem C4_downloads_amended_witness :
    isVendorServer ⟨"driving_sample.raw", getSampleUrl "driving_sample.raw"⟩
      = true :=
  C4_downloads_amended _ (by decide) (by decide)

/-- C6, counterexample: the claim says no file written by one notebook is
ever read by another, but `driving_sample.raw` is written (downloaded) by
the sequential-dataloader notebook and read by the detection-and-tracking
notebook, two distinct notebooks. -/
theorem C6_counterexample :
    ioSeqDataloader ∈ notebookIOs ∧ ioDetectionTracking ∈ notebookIOs ∧
    ioSeqDataloader.name ≠ ioDetectionTracking.name ∧
    "driving_sample.raw" ∈ ioSeqDataloader.writes ∧
    "driving_sample.raw" ∈ ioDetectionTracking.reads := by
  refine ⟨by decide, by decide, by decide, by decide, by decide⟩

/-- C6, amended: the only files written by one notebook and read by a
distinct notebook are the shared vendor sample downloads
(`driving_sample.raw`, `hand_spinner.raw`, `spinner.raw`, `spinner.dat`),
each fetched identically from its fixed vendor URL when absent; no file
produced by a notebook's own computation is read by another notebook, so
a notebook run can at most spare another notebook its download step. -/
theorem C6_shared_files_amended (a b : NotebookIO) (f : String)
    (ha : a ∈ notebookIOs) (hb : b ∈ notebookIOs) (hne : a.name ≠ b.name)
    (hw : f ∈ a.writes) (hr : f ∈ b.reads) :
    f ∈ sharedSampleDownloads := by
  fin_cases ha <;> fin_cases hb <;>
    simp_all [ioDetectionTracking, ioTorchjit, ioEventPreprocessing,
      ioSeqDataloader, ioDavis, ioBlinking, ioFlowTrainer, ioUiWindow,
      ioRawDatLoading, sharedSampleDownloads] <;>
    rcases hw with rfl | rfl | rfl | rfl | rfl | rfl | rfl <;> simp_all

/-- Witness for C6_shared_files_amended at the counterexample pair. -/
theorem C6_shared_files_amended_witness :
    "driving_sample.raw" ∈ sharedSampleDownloads :=
  C6_shared_files_amended ioSeqDataloader ioDetectionTracking
    "driving_sample.raw" (by decide) (by decide) (by decide) (by decide)
    (by decide)

/-- C7, counterexample: the claim says every notebook downloads first and
displays only last, with no SDK processing before the download step, but
in `Blinking_lights_detector.ipynb` the first section's processing and
display (positions 2 and 3) precede the second sample download (position
4), so the action sequence is not phase-ordered. -/
theorem C7_counterexample :
    nbBlinking ∈ notebooks ∧
    phaseOrdered nbBlinking.actions = false ∧
    nbBlinking.actions.get? 2 = some (.process (some "blinking_leds_td.dat")) ∧
    nbBlinking.actions.get? 4 =
      some (.download "calib_propheshield_parking.10_sec.raw") := by
  refine ⟨by decide, by decide, by decide, by decide⟩

/-- C7, amended: in every notebook, each sample file the notebook
downloads is downloaded before any SDK processing step that consumes it;
the global four-phase order fails only because processing and display
interleave in loops and some notebooks download or construct after
earlier sections have already processed and displayed. -/
theorem C7_downloads_precede_use_amended (nb : Notebook)
    (h : nb ∈ notebooks) :
    downloadsPrecedeUse (downloadsOf nb.actions) [] nb.actions = true := by
  fin_cases h <;> decide

/-- Witness for C7_downloads_precede_use_amended at the blinking-lights
notebook. -/
theorem C7_downloads_precede_use_amended_witness :
    downloadsPrecedeUse (downloadsOf nbBlinking.actions) []
      nbBlinking.actions = true :=
  C7_downloads_precede_use_amended nbBlinking (by decide)

/-- C9, counterexample: at `ts = 0` with accumulation time 10, `ts` is not
a positive multiple of the accumulation time, yet `generate_detection`
takes the `ts % NN_accumulation_time == 0` branch: it returns whatever the
detector produced (not necessarily empty) and resets the shared frame
buffer to zero, contradicting the claim's "returns an empty detections
array and does not reset the shared frame buffer".  Instantiated with a
buffer holding 1 everywhere and an SDK stub returning one detection. -/
theorem C9_counterexample :
    (∀ k : Int, 1 ≤ k → (0 : Int) ≠ k * 10) ∧
    (generate_detection (fun _ _ b => b) (fun _ _ => [7]) 10 0
        ([] : List Unit) (fun _ _ _ => 1)).1 ≠ [] ∧
    (generate_detection (fun _ _ b => b) (fun _ _ => [7]) 10 0
        ([] : List Unit) (fun _ _ _ => 1)).2 0 0 0 = 0 := by
  refine ⟨fun k hk h => ?_, by decide, rfl⟩
  nlinarith

/-- C9, amended: with "positive multiple" weakened to "multiple" (so that
`ts = 0` falls in the reset branch), the accumulation-period invariant
holds for every instantiation of the SDK calls: when the accumulation
time does not divide `ts`, `generate_detection` returns an empty
detections array and leaves the frame buffer exactly as
`cdproc.process_events` left it (no reset); when it divides `ts`, every
entry of the shared frame buffer is zero after the call. -/
theorem C9_accumulation_invariant {Ev D : Type}
    (A : Int → List Ev → (Nat → Nat → Nat → Nat) → (Nat → Nat → Nat → Nat))
    (P : Int → (Nat → Nat → Nat → Nat) → List D)
    (acc ts : Int) (ev : List Ev) (buf : Nat → Nat → Nat → Nat)
    (_hacc : 0 < acc) :
    (¬ acc ∣ ts →
      (generate_detection A P acc ts ev buf).1 = [] ∧
      (generate_detection A P acc ts ev buf).2 =
        A (((ts - 1).fdiv acc) * acc) ev buf) ∧
    (acc ∣ ts →
      ∀ c y x, (generate_detection A P acc ts ev buf).2 c y x = 0) := by
  unfold generate_detection
  by_cases h : ts % acc = 0
  · have hd : acc ∣ ts := Int.dvd_of_emod_eq_zero h
    simp [h, hd]
  · have hd : ¬ acc ∣ ts := fun hdvd => h (Int.emod_eq_zero_of_dvd hdvd)
    simp [h, hd]

/-- Witness for C9_accumulation_invariant at a concrete instantiation
(`acc = 10`, `ts = 3`, identity SDK stubs). -/
theorem C9_accumulation_invariant_witness :
    (generate_detection (fun _ _ b => b) (fun _ _ => ([] : List Nat)) 10 3
      ([] : List Nat) (fun _ _ _ => 5)).1 = [] :=
  ((C9_accumulation_invariant (fun _ _ b => b) (fun _ _ => ([] : List Nat))
      10 3 ([] : List Nat) (fun _ _ _ => 5) (by decide)).1 (by decide)).1

/-- C1, counterexample: the claim says no event-to-tensor preprocessing is
computed locally, yet the notebook-defined `binary_frame_preprocessing`
itself computes the tensor — its output depends on the events: with one
event at `x = 1` it sets entry `(0,0,0,1)` to 1, while with no events that
entry is 0, with no SDK call involved. -/
theorem C1_counterexample :
    binary_frame_preprocessing [⟨1, 0, 0, 0⟩] (fun _ _ _ _ => 0) 1 10 0 true
        0 0 0 1 = 1 ∧
    binary_frame_preprocessing [] (fun _ _ _ _ => 0) 1 10 0 true
        0 0 0 1 = 0 :=
  ⟨rfl, rfl⟩

/-- C1, amended: every algorithm exercised by the notebooks is an external
SDK call except the binary-frame event-to-tensor preprocessing, which the
event-preprocessing notebook implements locally as
`binary_frame_preprocessing`; the local implementation computes, for a
single time bin with reset, exactly the binary frame: entry `(i,j,k,l)` is
1 precisely when `i = 0` and some event downsamples to polarity `j`, row
`k`, column `l`, and 0 otherwise. -/
theorem C1_local_binary_frame (xypt : List EvXYPT) (out : Tensor4)
    (total d i j k l : Nat) :
    binary_frame_preprocessing xypt out 1 total d true i j k l =
      if i = 0 ∧ ∃ e ∈ xypt, e.p = j ∧ e.y >>> d = k ∧ e.x >>> d = l
      then 1 else 0 := by
  unfold binary_frame_preprocessing bfpWrites
  rw [bfpWritesAux_one_tbin, applyWrites_apply]
  have hiff :
      ((i, j, k, l) ∈
        xypt.map (fun e => ((0 : Nat), e.p, e.y >>> d, e.x >>> d))) ↔
      (i = 0 ∧ ∃ e ∈ xypt, e.p = j ∧ e.y >>> d = k ∧ e.x >>> d = l) := by
    simp only [List.mem_map, Prod.mk.injEq]
    constructor
    · rintro ⟨e, he, h0, hp, hy, hx⟩
      exact ⟨h0.symm, e, he, hp, hy, hx⟩
    · rintro ⟨rfl, e, he, hp, hy, hx⟩
      exact ⟨e, he, rfl, hp, hy, hx⟩
  rw [if_congr hiff rfl rfl]
  simp

/-- C8, counterexample: the claim's hypotheses hold for the single event
`(x=0, y=0, p=0, t=9)` with `total_tbins_delta_t = 10`, output shape
`num_tbins = 3`, width 1, height 1, two polarity channels, yet the loop
writes index `(3,0,0,0)`, out of bounds in the time-bin dimension (since
`dt = int(10/3) = 3` and `int(9 // 3) = 3 ≥ 3`). -/
theorem C8_counterexample :
    (∀ e ∈ ([⟨0, 0, 0, 9⟩] : List EvXYPT),
       e.t < 10 ∧ e.x >>> 0 < 1 ∧ e.y >>> 0 < 1 ∧ e.p < 2) ∧
    ∃ w ∈ bfpWrites [⟨0, 0, 0, 9⟩] 3 (10 / 3) 0, ¬ w.1 < 3 := by
  exact ⟨by decide, ⟨(3, 0, 0, 0), by decide, by decide⟩⟩

/-- C8, amended: under the claim's per-event hypotheses and the additional
condition (forced by the counterexample) that `num_tbins` divides
`total_tbins_delta_t` (and is positive), every index written by
`binary_frame_preprocessing` is in bounds, and with `reset=True` every
entry of the output array is 0 or 1 after the call. -/
theorem C8_memory_safety (xypt : List EvXYPT) (out : Tensor4)
    (num_tbins total d W H C : Nat)
    (hnum : 0 < num_tbins) (hdvd : num_tbins ∣ total)
    (hev : ∀ e ∈ xypt,
      e.t < total ∧ e.x >>> d < W ∧ e.y >>> d < H ∧ e.p < C) :
    (∀ w ∈ bfpWrites xypt num_tbins (total / num_tbins) d,
       w.1 < num_tbins ∧ w.2.1 < C ∧ w.2.2.1 < H ∧ w.2.2.2 < W) ∧
    (∀ i j k l,
       binary_frame_preprocessing xypt out num_tbins total d true i j k l
         = 0 ∨
       binary_frame_preprocessing xypt out num_tbins total d true i j k l
         = 1) := by
  constructor
  · cases xypt with
    | nil => intro w hw; simp [bfpWrites, bfpWritesAux] at hw
    | cons e0 rest =>
      have htot : 0 < total :=
        lt_of_le_of_lt (Nat.zero_le _)
          (hev e0 (List.mem_cons_self e0 rest)).1
      have hdt : 0 < total / num_tbins :=
        Nat.div_pos (Nat.le_of_dvd htot hdvd) hnum
      have hmul : num_tbins * (total / num_tbins) = total :=
        Nat.mul_div_cancel' hdvd
      exact bfpWritesAux_bounds num_tbins (total / num_tbins) d W H C
        (e0 :: rest) (0, total / num_tbins) hnum hdt
        (fun e he => by rw [hmul]; exact hev e he)
  · intro i j k l
    unfold binary_frame_preprocessing
    rw [applyWrites_apply]
    split
    · right; rfl
    · left; rfl

/-- C5: the structured event array the Davis conversion cell constructs
has exactly the four `EventCD` fields x, y, p, t (each row carries one
value per field), and the `np.save`/`np.load` round-trip the notebook
performs returns the array, dtype included, unchanged. -/
theorem C5_eventcd_dtype_roundtrip (ls : List DavisLine) :
    (davisConvert ls).dtype = EventCD_names ∧
    (∀ r ∈ (davisConvert ls).rows, r.length = EventCD_names.length) ∧
    npLoad (npSave (davisConvert ls)) = davisConvert ls := by
  refine ⟨rfl, ?_, ?_⟩
  · intro r hr
    obtain ⟨l, _, rfl⟩ := List.mem_map.mp hr
    rfl
  · show (⟨EventCD_names, chunkRows EventCD_names.length
      (davisConvert ls).rows.length (davisConvert ls).rows.flatten⟩ :
        StructuredArray) = davisConvert ls
    have h4 : ∀ r ∈ (davisConvert ls).rows, r.length = EventCD_names.length := by
      intro r hr
      obtain ⟨l, _, rfl⟩ := List.mem_map.mp hr
      rfl
    rw [chunkRows_join EventCD_names.length (davisConvert ls).rows h4]
    rfl

/-- C10: the filtering-comparison loop of the Davis notebook, run on a
finite array sorted by non-decreasing timestamp with `delta_t ≥ 1`,
terminates (its state is a fixpoint once the fuel reaches `filterFuel`),
ends with `start_idx` at the array length, partitions the indices into
consecutive disjoint slices `[start_idx, end_idx)` chaining from 0 to the
length, hands every event index to exactly one processed chunk, and
processes chunks in non-decreasing timestamp order. -/
theorem C10_filtering_loop (t : List Int) (delta_t : Int)
    (hd : 1 ≤ delta_t) (hsorted : t.Pairwise (· ≤ ·)) :
    (∀ m : Nat, filterLoopRun t delta_t (filterFuel t + m) =
       filterLoopRun t delta_t (filterFuel t)) ∧
    (filterLoopRun t delta_t (filterFuel t)).start_idx = t.length ∧
    ChunkChain 0 t.length (filterLoopRun t delta_t (filterFuel t)).chunks ∧
    (∀ i, i < t.length →
       (filterLoopRun t delta_t (filterFuel t)).chunks.countP
         (fun c => decide (c.1 ≤ i ∧ i < c.2)) = 1) ∧
    (∀ (l1 : List (Nat × Nat)) (c : Nat × Nat) (l2 : List (Nat × Nat))
       (c2 : Nat × Nat) (i j : Nat) (hi : i < t.length) (hj : j < t.length),
       (filterLoopRun t delta_t (filterFuel t)).chunks = l1 ++ c :: l2 →
       c2 ∈ l2 → c.1 ≤ i → i < c.2 → c2.1 ≤ j → j < c2.2 →
       t.get ⟨i, hi⟩ ≤ t.get ⟨j, hj⟩) := by
  have hd0 : (0 : Int) ≤ delta_t := by linarith
  have hall : ∀ x ∈ t, x < filterLoopInit.ts + delta_t +
      (((listMax t).toNat + 1 : Nat) : Int) * delta_t := by
    intro x hx
    have h1 : x ≤ listMax t := le_listMax t x hx
    have h2 : listMax t ≤ ((listMax t).toNat : Int) := Int.self_le_toNat _
    have h3 : (((listMax t).toNat + 1 : Nat) : Int) ≤
        (((listMax t).toNat + 1 : Nat) : Int) * delta_t := by
      have hpos : (0 : Int) ≤ (((listMax t).toNat + 1 : Nat) : Int) := by
        positivity
      nlinarith
    show x < (0 : Int) + delta_t + _
    push_cast at h2 h3 ⊢
    linarith
  have hge : t.length ≤ (filterLoopRun t delta_t (filterFuel t)).start_idx := by
    have hdr := filterLoop_drains t delta_t ((listMax t).toNat + 1)
      filterLoopInit hall
    simpa [filterLoopRun, filterFuel] using hdr
  have hinv : LoopInv t delta_t (filterLoopRun t delta_t (filterFuel t)) :=
    filterLoop_inv t delta_t hd0 _ _ ⟨rfl, Nat.zero_le _⟩
  have hle : (filterLoopRun t delta_t (filterFuel t)).start_idx ≤ t.length :=
    le_trans hinv.2 (searchsorted_le_length _ _)
  have hstart : (filterLoopRun t delta_t (filterFuel t)).start_idx =
      t.length := le_antisymm hle hge
  have hchain :
      ChunkChain 0 t.length (filterLoopRun t delta_t (filterFuel t)).chunks :=
    hstart ▸ hinv.1
  refine ⟨?_, hstart, hchain, ?_, ?_⟩
  · intro m
    show filterLoop t delta_t (filterFuel t + m) filterLoopInit = _
    rw [filterLoop_add]
    refine filterLoop_exit _ _ _ _ ?_
    have hstart2 :
        (filterLoop t delta_t (filterFuel t) filterLoopInit).start_idx =
          t.length := hstart
    omega
  · intro i hi
    exact ChunkChain_countP i 0 t.length _ hchain (Nat.zero_le i) hi
  · intro l1 c l2 c2 i j hi hj heq hc2 hci hic hcj hjc
    have horder : c.2 ≤ c2.1 :=
      ChunkChain_order 0 t.length l1 c l2 (heq ▸ hchain) c2 hc2
    have hij : (⟨i, hi⟩ : Fin t.length) < ⟨j, hj⟩ := by
      simp only [Fin.mk_lt_mk]
      omega
    exact List.pairwise_iff_get.mp hsorted ⟨i, hi⟩ ⟨j, hj⟩ hij

/-- Witness for C10_filtering_loop at a concrete sorted array. -/
theorem C10_filtering_loop_witness :
    (filterLoopRun [0, 5, 12] 10 (filterFuel [0, 5, 12])).start_idx =
      ([0, 5, 12] : List Int).length :=
  (C10_filtering_loop [0, 5, 12] 10 (by decide) (by decide)).2.1

/-- Witness for C8_memory_safety at a concrete instantiation
(`num_tbins = 2` dividing `total = 10`, one event at `t = 4`). -/
theorem C8_memory_safety_witness :
    (∀ w ∈ bfpWrites [⟨0, 0, 0, 4⟩] 2 (10 / 2) 0,
       w.1 < 2 ∧ w.2.1 < 1 ∧ w.2.2.1 < 1 ∧ w.2.2.2 < 1) ∧
    (∀ i j k l,
       binary_frame_preprocessing [⟨0, 0, 0, 4⟩] (fun _ _ _ _ => 0) 2 10 0
           true i j k l = 0 ∨
       binary_frame_preprocessing [⟨0, 0, 0, 4⟩] (fun _ _ _ _ => 0) 2 10 0
           true i j k l = 1) :=
  C8_memory_safety [⟨0, 0, 0, 4⟩] (fun _ _ _ _ => 0) 2 10 0 1 1 1
    (by decide) (by decide) (by decide)

end EE403
